import Mathlib

/-!
Shallow embedding of the edge request pipeline of the swarms-platform
repository, file src/shared/utils/stack-middlewares/middlewares.ts, together
with theorems settling the frozen claims about it.

Conventions of the embedding:
* JavaScript strings are Lean strings (code points instead of UTF-16 code
  units; the two coincide on every input considered here).
* A header read request.headers.get(h) is an Option String field of the
  request model, with none standing for an absent header.
* JavaScript truthiness of a nullable string is jsTruthyStr: null and the
  empty string are falsy, every other string truthy.
* Platform primitives external to the repository, namely JSON.parse,
  request.formData and the Upstash sliding-window counter store, are oracles:
  their results are inputs of the model.
* Each middleware stage is modelled as a function from the already awaited
  result of the next handler and the request model to the value the stage
  returns; a short-circuit rejection constructor records that next was not
  invoked on that path.
-/

/-- JavaScript truthiness of a nullable string: null and the empty string are
falsy, everything else is truthy. -/
def jsTruthyStr : Option String → Bool
  | none => false
  | some s => !s.data.isEmpty

/-- The JavaScript value-or-default idiom, as in header get or default. -/
def jsOrDefault (o : Option String) (d : String) : String :=
  match o with
  | none => d
  | some s => if s.data.isEmpty then d else s

/-- Whether the first list starts with the second list, character by
character. -/
def charsLeadWith : List Char → List Char → Bool
  | _, [] => true
  | [], _ :: _ => false
  | c :: cs, p :: ps => decide (c = p) && charsLeadWith cs ps

/-- Substring search on character lists, the semantics of the JavaScript
String.prototype.includes test. -/
def strHasSub : List Char → List Char → Bool
  | [], pat => pat.isEmpty
  | c :: rest, pat => charsLeadWith (c :: rest) pat || strHasSub rest pat

/-- JavaScript includes on strings. -/
def strIncludes (s pat : String) : Bool :=
  strHasSub s.data pat.data

/-- JavaScript startsWith on strings. -/
def strStartsWith (s pat : String) : Bool :=
  charsLeadWith s.data pat.data

/-- The characters removed by String.prototype.trim: whitespace on both ends.
The JavaScript class also has exotic Unicode members that never occur in the
inputs considered here. -/
def trimChars (cs : List Char) : List Char :=
  (((cs.dropWhile Char.isWhitespace).reverse).dropWhile Char.isWhitespace).reverse

/-- JavaScript s.split(sep)[0].trim() for a one-character separator: the
characters before the first separator occurrence, trimmed. The split of any
string on a separator always has a first element, equal to exactly these
characters. -/
def firstTokenTrimmed (sep : Char) (s : String) : String :=
  String.mk (trimChars (s.data.takeWhile (fun c => !decide (c = sep))))

/-- Embedding of getIpAddress, middlewares.ts lines 19 to 43. The source reads
exactly the two headers x-forwarded-for and x-real-ip from the request, so the
resolver is modelled as a pure function of those two optional header values:
first comma-separated token of the forwarded chain if that header is truthy,
else the real-ip header if truthy, else the literal fallback, with the IPv6
loopback literal rewritten to the IPv4 one in the first two cases. -/
def getIpAddress (forwarded realIp : Option String) : String :=
  if jsTruthyStr forwarded then
    let forwardedIp := firstTokenTrimmed ',' (jsOrDefault forwarded "")
    if forwardedIp = "::1" then "127.0.0.1" else forwardedIp
  else if jsTruthyStr realIp then
    let r := jsOrDefault realIp ""
    if r = "::1" then "127.0.0.1" else r
  else "127.0.0.1"

/-- A NextResponse carrying a JSON body with a single error field: the status
code and the error string. -/
structure JsonErrorResponse where
  status : Nat
  error : String
deriving DecidableEq

/-- Request model for the rate limiter stage: the path and the two
client-address headers. -/
structure RateRequest where
  pathname : String
  xForwardedFor : Option String
  xRealIp : Option String

/-- Value returned by the rate limiter stage: either the result of the next
handler, passed through, or a short-circuit JSON rejection built without
invoking next. -/
inductive RateOutcome (α : Type) where
  | fromNext : α → RateOutcome α
  | rejected : JsonErrorResponse → RateOutcome α
deriving DecidableEq

/-- One run of the rate limiter stage: the returned value, plus whether the
sliding-window counter store was consulted on this run. -/
structure RateResult (α : Type) where
  outcome : RateOutcome α
  consultedStore : Bool
deriving DecidableEq

/-- Capacity of the sliding window configured on the counter store,
middlewares.ts line 13. -/
def RATE_LIMIT_CAPACITY : Nat := 300

/-- Window length in seconds of the sliding window configured on the counter
store, middlewares.ts line 13. -/
def RATE_LIMIT_WINDOW_SECONDS : Nat := 60

/-- Embedding of withRateLimit, middlewares.ts lines 48 to 74. The
sliding-window counter store is external: limitAllows gives, per resolved
client key, the success flag of its answer for this run (capacity 300 per 60
second window). The argument next is the already awaited result of the inner
handler; a fromNext outcome means the stage invoked next and returned its
result, a rejected outcome means it short-circuited without invoking next. -/
def withRateLimit {α : Type} (limitAllows : String → Bool) (next : α)
    (req : RateRequest) : RateResult α :=
  if strIncludes req.pathname "/api/webhooks" then
    ⟨RateOutcome.fromNext next, false⟩
  else if strIncludes req.pathname "/api/trpc/explorer.getExplorerData" then
    ⟨RateOutcome.fromNext next, false⟩
  else if strIncludes req.pathname "/api" then
    if limitAllows (getIpAddress req.xForwardedFor req.xRealIp) then
      ⟨RateOutcome.fromNext next, true⟩
    else
      ⟨RateOutcome.rejected ⟨429, "Too many requests"⟩, true⟩
  else
    ⟨RateOutcome.fromNext next, false⟩

/-- Claim C1: for every request whose path contains the protected prefix /api
and is not an exempted path, if the sliding-window counter store reports the
capacity exceeded for the resolved client address the stage returns the 429
rejection with error body Too many requests without invoking next, and
otherwise it invokes next and returns its result. The store consultation flag
is true in both cases. -/
theorem rate_limit_protected_behavior {α : Type} (limitAllows : String → Bool)
    (next : α) (req : RateRequest)
    (hprot : strIncludes req.pathname "/api" = true)
    (hex1 : strIncludes req.pathname "/api/webhooks" = false)
    (hex2 : strIncludes req.pathname "/api/trpc/explorer.getExplorerData" = false) :
    withRateLimit limitAllows next req =
      (if limitAllows (getIpAddress req.xForwardedFor req.xRealIp) then
        ⟨RateOutcome.fromNext next, true⟩
      else
        ⟨RateOutcome.rejected ⟨429, "Too many requests"⟩, true⟩) := by
  simp [withRateLimit, hprot, hex1, hex2]

/-- Concrete instantiation of the protected-path theorem: path /api/users, a
store reporting the window exceeded, and the denial that results. -/
theorem rate_limit_protected_behavior_witness :
    strIncludes "/api/users" "/api" = true ∧
    strIncludes "/api/users" "/api/webhooks" = false ∧
    strIncludes "/api/users" "/api/trpc/explorer.getExplorerData" = false ∧
    withRateLimit (fun _ => false) (0 : Nat) ⟨"/api/users", none, none⟩ =
      ⟨RateOutcome.rejected ⟨429, "Too many requests"⟩, true⟩ :=
  ⟨by decide, by decide, by decide, by
    have h := rate_limit_protected_behavior (fun _ => false) (0 : Nat)
      ⟨"/api/users", none, none⟩ (by decide) (by decide) (by decide)
    simpa using h⟩

/-- Claim C5: every request whose path contains /api/webhooks or contains
/api/trpc/explorer.getExplorerData is passed to next without consulting the
counter store, for every possible store behavior, so such requests are never
denied with 429 regardless of request volume. -/
theorem rate_limit_exempt_paths {α : Type} (limitAllows : String → Bool)
    (next : α) (req : RateRequest)
    (hex : strIncludes req.pathname "/api/webhooks" = true ∨
      strIncludes req.pathname "/api/trpc/explorer.getExplorerData" = true) :
    withRateLimit limitAllows next req = ⟨RateOutcome.fromNext next, false⟩ := by
  rcases hex with h | h
  · simp [withRateLimit, h]
  · by_cases h2 : strIncludes req.pathname "/api/webhooks" = true <;>
      simp [withRateLimit, h, h2]

/-- Concrete instantiation of the exemption theorem: the Stripe webhook path
under a store that would deny everything is still passed through, with the
store never consulted. -/
theorem rate_limit_exempt_paths_witness :
    strIncludes "/api/webhooks/stripe" "/api/webhooks" = true ∧
    withRateLimit (fun _ => false) (0 : Nat) ⟨"/api/webhooks/stripe", none, none⟩ =
      ⟨RateOutcome.fromNext 0, false⟩ :=
  ⟨by decide,
    rate_limit_exempt_paths (fun _ => false) (0 : Nat)
      ⟨"/api/webhooks/stripe", none, none⟩ (Or.inl (by decide))⟩

/-- Claim C4: the client address resolver is a pure function of the two
headers. If the forwarded-chain header is present in the JavaScript truthiness
sense of the source, the result is its trimmed first comma-separated token;
otherwise, if the real-ip header is present in the same sense, its value;
otherwise the literal 127.0.0.1. In the first two cases a value equal to the
IPv6 loopback literal is rewritten to 127.0.0.1. The three concrete cases of
the claim are included verbatim. -/
theorem client_address_resolution :
    (∀ f r, jsTruthyStr (some f) = true →
      getIpAddress (some f) r =
        (if firstTokenTrimmed ',' f = "::1" then "127.0.0.1"
         else firstTokenTrimmed ',' f)) ∧
    (∀ f r, jsTruthyStr f = false → jsTruthyStr (some r) = true →
      getIpAddress f (some r) = (if r = "::1" then "127.0.0.1" else r)) ∧
    (∀ f r, jsTruthyStr f = false → jsTruthyStr r = false →
      getIpAddress f r = "127.0.0.1") ∧
    getIpAddress (some "::1, 10.0.0.5") none = "127.0.0.1" ∧
    getIpAddress (some "203.0.113.7, 10.0.0.5") none = "203.0.113.7" ∧
    getIpAddress none none = "127.0.0.1" := by
  refine ⟨?_, ?_, ?_, by decide, by decide, by decide⟩
  · intro f r hf
    have hne : f.data.isEmpty = false := by
      simpa [jsTruthyStr] using hf
    simp only [getIpAddress, hf, if_true]
    simp [jsOrDefault, hne]
  · intro f r hf hr
    have hne : r.data.isEmpty = false := by
      simpa [jsTruthyStr] using hr
    simp only [getIpAddress, hf, hr, Bool.false_eq_true, if_false, if_true]
    simp [jsOrDefault, hne]
  · intro f r hf hr
    simp only [getIpAddress, hf, hr, Bool.false_eq_true, if_false]

/-- Concrete instantiation of the resolver theorem: a truthy forwarded chain
with a leading IPv6 loopback token resolves to the IPv4 loopback. -/
theorem client_address_resolution_witness :
    jsTruthyStr (some "::1, 10.0.0.5") = true ∧
    getIpAddress (some "::1, 10.0.0.5") (some "9.9.9.9") = "127.0.0.1" :=
  ⟨by decide, by
    have h := client_address_resolution.1 "::1, 10.0.0.5" (some "9.9.9.9") (by decide)
    simpa using h⟩

/-- Embedding of SECURITY_CONFIG, middlewares.ts lines 76 to 82. -/
structure SecurityConfig where
  MAX_PAYLOAD_SIZE : Nat
  MAX_FIELD_LENGTH : Nat
  MAX_FORM_FIELDS : Nat
  REQUEST_TIMEOUT : Nat
  MAX_NESTING_DEPTH : Nat

/-- The fixed security configuration record of the source. -/
def SECURITY_CONFIG : SecurityConfig :=
  ⟨500000, 1000, 10, 5000, 3⟩

/-- Primitive JavaScript values as they occur in parsed request bodies. -/
inductive JsPrim where
  | str : String → JsPrim
  | num : Int → JsPrim
  | jsBool : Bool → JsPrim
  | null : JsPrim
  | undefined : JsPrim
deriving DecidableEq

/-- A JavaScript value: a primitive, or a reference to an object or array on
the heap. Objects and arrays are identified by heap addresses so that the
identity-based visited set of the source and reference cycles, such as a
self-referential object, are representable. -/
inductive JsValue where
  | prim : JsPrim → JsValue
  | ref : Nat → JsValue
deriving DecidableEq

/-- An object heap: the enumerable own fields of each address, in the
enumeration order a for-in loop observes. Arrays are objects whose keys are
index strings. -/
structure JsHeap where
  fields : Nat → List (String × JsValue)

/-- The JavaScript test typeof v is object and v is not null, which guards
recursive descent in the source depth check: true exactly on heap
references in this model, where null is a primitive. -/
def isObjectNonNull : JsValue → Bool
  | JsValue.ref _ => true
  | JsValue.prim _ => false

/-- Worker of the depth check, structurally recursive on a fuel argument so
that the definition computes. The source recursion terminates because every
recursive call increments the depth and any depth above MAX_NESTING_DEPTH
returns at once; fuel is kept equal to MAX_NESTING_DEPTH + 2 - depth, which is
positive whenever the depth test can fail, so the fuel-zero branch, which
agrees with the source answer at such depths, is never the deciding one. -/
def checkNestingGo (h : JsHeap) : Nat → JsValue → Nat → List Nat → Bool
  | 0, _, _, _ => true
  | Nat.succ fuel, v, depth, visited =>
    if SECURITY_CONFIG.MAX_NESTING_DEPTH < depth then true
    else
      match v with
      | JsValue.prim _ => false
      | JsValue.ref a =>
        if visited.contains a then true
        else
          (h.fields a).any fun kv =>
            isObjectNonNull kv.2 &&
              checkNestingGo h fuel kv.2 (depth + 1) (a :: visited)

/-- Embedding of checkNestingDepth, middlewares.ts lines 84 to 99: returns
true when the value nests objects deeper than MAX_NESTING_DEPTH below the
top-level value, or when the walk revisits an object already on the current
branch, the cycle case. The visited set is extended on descent and, as in the
source, siblings observe the same set because each recursive call receives its
own extension. -/
def checkNestingDepth (h : JsHeap) (v : JsValue) (depth : Nat)
    (visited : List Nat) : Bool :=
  checkNestingGo h (SECURITY_CONFIG.MAX_NESTING_DEPTH + 2 - depth) v depth visited

/-- JavaScript property read v.key: the field value on object references, and
undefined on primitives other than null and undefined, which in the source
can only be reached for a non-object parsed body and there yields undefined.
Reads on null and undefined throw in JavaScript; the embedding of the JSON
branch below handles the null body case before any read. -/
def getField (h : JsHeap) (v : JsValue) (key : String) : JsValue :=
  match v with
  | JsValue.ref a =>
    match (h.fields a).find? (fun kv => decide (kv.1 = key)) with
    | some kv => kv.2
    | none => JsValue.prim JsPrim.undefined
  | JsValue.prim _ => JsValue.prim JsPrim.undefined

/-- JavaScript truthiness of a value of the model. -/
def truthy : JsValue → Bool
  | JsValue.ref _ => true
  | JsValue.prim (JsPrim.str s) => !s.data.isEmpty
  | JsValue.prim (JsPrim.num n) => !decide (n = 0)
  | JsValue.prim (JsPrim.jsBool b) => b
  | JsValue.prim JsPrim.null => false
  | JsValue.prim JsPrim.undefined => false

/-- The JavaScript test typeof v is string. -/
def isString : JsValue → Bool
  | JsValue.prim (JsPrim.str _) => true
  | _ => false

/-- The string content of a string value, and the empty string elsewhere; only
read under an isString guard. -/
def asString : JsValue → String
  | JsValue.prim (JsPrim.str s) => s
  | _ => ""

/-- Whether a character is excluded by the negated character class of the
email pattern: whitespace or the at sign. -/
def emailClassOk (c : Char) : Bool :=
  !c.isWhitespace && !decide (c = '@')

/-- Decision procedure for the email pattern of middlewares.ts line 168,
anchored at both ends: one or more characters that are neither whitespace nor
the at sign, one at sign, then a domain part of the same character class
containing a dot that has at least one character on each side. A string
matches the anchored pattern exactly when it has exactly one at sign, a
nonempty class-respecting local part before it, and a class-respecting domain
part with an interior dot. -/
def emailRegexTest (s : String) : Bool :=
  let cs := s.data
  decide ((cs.filter (fun c => decide (c = '@'))).length = 1) &&
    (let a := cs.takeWhile (fun c => !decide (c = '@'))
     let b := (cs.dropWhile (fun c => !decide (c = '@'))).drop 1
     !a.isEmpty && a.all emailClassOk && b.all emailClassOk &&
       (b.drop 1).dropLast.any (fun c => decide (c = '.')))

/-- The JavaScript parseInt with radix 10: skip leading whitespace, read an
optional sign and then a maximal run of decimal digits; none models the NaN
result produced when no digit follows. Trailing non-digit characters are
ignored, as in parseInt. -/
def parseIntJS (s : String) : Option Int :=
  let cs := s.data.dropWhile Char.isWhitespace
  let signAndRest : Int × List Char :=
    match cs with
    | '-' :: rest => (-1, rest)
    | '+' :: rest => (1, rest)
    | _ => (1, cs)
  let ds := signAndRest.2.takeWhile Char.isDigit
  if ds.isEmpty then none
  else
    some (signAndRest.1 *
      (ds.foldl (fun acc c => acc * 10 + (c.toNat - 48)) 0 : Nat))

/-- The declared-size gate of middlewares.ts lines 132 to 138: parseInt of the
content-length header with the or-zero default, compared against the maximum
payload size. A NaN parse compares false, as in JavaScript. -/
def declaredTooLarge (clHeader : Option String) : Bool :=
  match parseIntJS (jsOrDefault clHeader "0") with
  | some n => decide ((SECURITY_CONFIG.MAX_PAYLOAD_SIZE : Int) < n)
  | none => false

/-- Embedding of the JSON branch of withSecurityChecks, middlewares.ts lines
155 to 175, applied to the parsed body: the message of the first error thrown,
or none when the body passes. Reading a property of a null body throws a
TypeError in JavaScript whose message is caught by the same handler and mapped
to status 400; the model gives that branch its own message before the
property reads. -/
def jsonBranchValidate (h : JsHeap) (body : JsValue) : Option String :=
  if checkNestingDepth h body 0 [] then some "Payload structure too complex"
  else if body = JsValue.prim JsPrim.null then
    some "Cannot read properties of null"
  else
    let email := getField h body "email"
    let password := getField h body "password"
    if !truthy email || !truthy password || !isString email || !isString password then
      some "Invalid credentials format"
    else if !emailRegexTest (asString email) then some "Invalid email format"
    else if (asString password).length < 8 ∨ 100 < (asString password).length then
      some "Invalid password length"
    else none

/-- A form data entry value: a string field or a file. -/
inductive FormValue where
  | str : String → FormValue
  | file : FormValue
deriving DecidableEq

/-- The denylist test of middlewares.ts lines 196 to 205 on a string form
field. -/
def denylisted (s : String) : Bool :=
  strIncludes s "script" || strIncludes s "<" || strIncludes s ">" ||
    strIncludes s "$\x7b" || strIncludes s "eval("

/-- The per-entry loop of the form branch, middlewares.ts lines 188 to 206:
the message of the first error thrown, or none. File values are skipped by
the string type guards. -/
def formFieldError : List (String × FormValue) → Option String
  | [] => none
  | (_, FormValue.file) :: rest => formFieldError rest
  | (_, FormValue.str s) :: rest =>
    if SECURITY_CONFIG.MAX_FIELD_LENGTH < s.length then some "Form field too large"
    else if denylisted s then some "Invalid form data content"
    else formFieldError rest

/-- Embedding of the form branch of withSecurityChecks, middlewares.ts lines
176 to 210. The formData argument is the oracle result of request.formData,
with none modelling a parse failure throw. Every error raised inside the
branch, including the field-count and per-field errors, is caught by the
enclosing handler of line 207 and rethrown as the single message Invalid form
data. -/
def formBranchValidate (fd : Option (List (String × FormValue))) : Option String :=
  let inner : Option String :=
    match fd with
    | none => some "form data parse failure"
    | some entries =>
      if SECURITY_CONFIG.MAX_FORM_FIELDS < entries.length then
        some "Too many form fields"
      else formFieldError entries
  match inner with
  | some _ => some "Invalid form data"
  | none => none

/-- Request model for the security-checks stage. bodyText is the text the
clone of the request materializes on the JSON branch; parsedJson is the oracle
result of JSON.parse on that text, with none modelling a syntax error throw;
formData is the oracle result of request.formData. -/
structure SecRequest where
  pathname : String
  method : String
  contentType : Option String
  contentLength : Option String
  bodyText : String
  parsedJson : Option (JsHeap × JsValue)
  formData : Option (List (String × FormValue))

/-- Value returned by the security-checks stage: a short-circuit JSON
rejection, or the decision to invoke next and return its result. -/
inductive SecOutcome where
  | reject : JsonErrorResponse → SecOutcome
  | callNext : SecOutcome
deriving DecidableEq

/-- One run of the security-checks stage: the decision, plus whether the
request body was consumed, through text or formData, before it was made. -/
structure SecResult where
  outcome : SecOutcome
  bodyConsumed : Bool
deriving DecidableEq

/-- Whether the content type passes the gate of middlewares.ts lines 106 to
110: it includes one of the three accepted media types. -/
def supportedContentType (ct : String) : Bool :=
  strIncludes ct "application/json" ||
    strIncludes ct "application/x-www-form-urlencoded" ||
    strIncludes ct "multipart/form-data"

/-- The raced work of withSecurityChecks, middlewares.ts lines 131 to 211:
the message of the first error thrown, or none, plus whether the body was
consumed before that point. The 5000 unit timer of the race is real time and
is modelled by the work branch winning; a timer win would surface exactly like
any other thrown message through the same handler. -/
def securityWork (req : SecRequest) : Option String × Bool :=
  if declaredTooLarge req.contentLength then (some "Payload too large", false)
  else
    let contentType := jsOrDefault req.contentType ""
    if strIncludes contentType "application/json" then
      if SECURITY_CONFIG.MAX_PAYLOAD_SIZE < req.bodyText.length then
        (some "Payload too large", true)
      else
        match req.parsedJson with
        | none => (some "Invalid JSON payload", true)
        | some hb => (jsonBranchValidate hb.1 hb.2, true)
    else
      if strIncludes contentType "application/x-www-form-urlencoded" ||
          strIncludes contentType "multipart/form-data" then
        (formBranchValidate req.formData, true)
      else (none, false)

/-- Embedding of withSecurityChecks, middlewares.ts lines 101 to 229: on a
POST to the validated path, the content-type gate answers 415, and any message
thrown by the raced work is converted by the catch of line 214 to a JSON error
response whose status is 413 exactly for the message Payload too large and 400
otherwise; every other request is passed to next. -/
def withSecurityChecks (req : SecRequest) : SecResult :=
  if req.pathname = "/signin/password_signin" then
    if req.method = "POST" then
      let contentType := jsOrDefault req.contentType ""
      if !strIncludes contentType "application/json" &&
          !strIncludes contentType "application/x-www-form-urlencoded" &&
          !strIncludes contentType "multipart/form-data" then
        ⟨SecOutcome.reject ⟨415, "Unsupported content type"⟩, false⟩
      else
        match securityWork req with
        | (some msg, consumed) =>
          ⟨SecOutcome.reject
            ⟨if msg = "Payload too large" then 413 else 400, msg⟩, consumed⟩
        | (none, consumed) => ⟨SecOutcome.callNext, consumed⟩
    else ⟨SecOutcome.callNext, false⟩
  else ⟨SecOutcome.callNext, false⟩

/-- The negated conjunction guarding the 415 rejection equals the negation of
the supported content type test. -/
theorem ctGateEq (ct : String) :
    (!strIncludes ct "application/json" &&
      !strIncludes ct "application/x-www-form-urlencoded" &&
      !strIncludes ct "multipart/form-data") = !supportedContentType ct := by
  simp [supportedContentType]

/-- Claim C9: every POST to the validated path whose content-type header
includes none of the three accepted media types is rejected with status 415
and error body Unsupported content type, without invoking next and without
consuming the body. -/
theorem content_type_gate (req : SecRequest)
    (hp : req.pathname = "/signin/password_signin")
    (hm : req.method = "POST")
    (hct : supportedContentType (jsOrDefault req.contentType "") = false) :
    withSecurityChecks req =
      ⟨SecOutcome.reject ⟨415, "Unsupported content type"⟩, false⟩ := by
  simp [withSecurityChecks, hp, hm, ctGateEq, hct]

/-- Concrete instantiation of the content-type gate theorem at a text-plain
POST. -/
theorem content_type_gate_witness :
    supportedContentType (jsOrDefault (some "text/plain") "") = false ∧
    withSecurityChecks
        ⟨"/signin/password_signin", "POST", some "text/plain", none, "", none, none⟩ =
      ⟨SecOutcome.reject ⟨415, "Unsupported content type"⟩, false⟩ :=
  ⟨by decide, content_type_gate _ rfl rfl (by decide)⟩

/-- Claim C6: on a POST to the validated path with an accepted content type, a
declared content-length above the maximum payload size is rejected with 413
and error body Payload too large before the body is consumed; and on the JSON
branch the materialized body text length is re-checked against the same cap,
rejecting with 413 after the body was read. -/
theorem payload_size_gates :
    (∀ req : SecRequest, req.pathname = "/signin/password_signin" →
      req.method = "POST" →
      supportedContentType (jsOrDefault req.contentType "") = true →
      declaredTooLarge req.contentLength = true →
      withSecurityChecks req =
        ⟨SecOutcome.reject ⟨413, "Payload too large"⟩, false⟩) ∧
    (∀ req : SecRequest, req.pathname = "/signin/password_signin" →
      req.method = "POST" →
      strIncludes (jsOrDefault req.contentType "") "application/json" = true →
      declaredTooLarge req.contentLength = false →
      SECURITY_CONFIG.MAX_PAYLOAD_SIZE < req.bodyText.length →
      withSecurityChecks req =
        ⟨SecOutcome.reject ⟨413, "Payload too large"⟩, true⟩) := by
  constructor
  · intro req hp hm hct hcl
    simp [withSecurityChecks, hp, hm, ctGateEq, hct, securityWork, hcl]
  · intro req hp hm hjson hcl hlen
    have hsupp : supportedContentType (jsOrDefault req.contentType "") = true := by
      simp [supportedContentType, hjson]
    simp [withSecurityChecks, hp, hm, ctGateEq, hsupp, securityWork, hcl, hjson, hlen]

/-- A body text one character longer than the maximum payload size. -/
def bigBody : String :=
  String.mk (List.replicate 500001 'a')

/-- Concrete instantiation of both size gates: declared length 600000 is
rejected before the body is read, and a materialized text of 500001
characters under a truthful small declared length is rejected after. -/
theorem payload_size_gates_witness :
    declaredTooLarge (some "600000") = true ∧
    withSecurityChecks
        ⟨"/signin/password_signin", "POST", some "application/json",
          some "600000", "", none, none⟩ =
      ⟨SecOutcome.reject ⟨413, "Payload too large"⟩, false⟩ ∧
    SECURITY_CONFIG.MAX_PAYLOAD_SIZE < bigBody.length ∧
    withSecurityChecks
        ⟨"/signin/password_signin", "POST", some "application/json",
          some "99", bigBody, none, none⟩ =
      ⟨SecOutcome.reject ⟨413, "Payload too large"⟩, true⟩ := by
  have hlen : bigBody.length = 500001 := by
    have : bigBody.length = (List.replicate 500001 'a').length := rfl
    rw [this, List.length_replicate]
  refine ⟨by decide, ?_, ?_, ?_⟩
  · exact payload_size_gates.1 _ rfl rfl (by decide) (by decide)
  · rw [hlen]; decide
  · exact payload_size_gates.2 _ rfl rfl (by decide) (by decide) (by rw [hlen]; decide)

/-- A JSON-branch request to the validated endpoint with the given parse
oracle result. Only the length of the body text is consulted by the code
besides its parse, so the text is left empty here and the parse result is
supplied directly. -/
def jsonSigninRequest (pj : Option (JsHeap × JsValue)) : SecRequest :=
  ⟨"/signin/password_signin", "POST", some "application/json", none, "", pj, none⟩

/-- Heap of a parsed body whose deepest object sits four descent steps below
the top-level object: the top-level object at address 0 holds a chain of four
further objects. -/
def deepHeap : JsHeap :=
  ⟨fun a =>
    if a = 0 then [("a", JsValue.ref 1)]
    else if a = 1 then [("b", JsValue.ref 2)]
    else if a = 2 then [("c", JsValue.ref 3)]
    else if a = 3 then [("d", JsValue.ref 4)]
    else if a = 4 then [("e", JsValue.prim (JsPrim.str "x"))]
    else []⟩

/-- Heap of a parsed body whose deepest object sits exactly three descent
steps below the top-level object, alongside valid credentials, so that the
whole validator passes. -/
def okDepthHeap : JsHeap :=
  ⟨fun a =>
    if a = 0 then
      [("email", JsValue.prim (JsPrim.str "a@b.com")),
       ("password", JsValue.prim (JsPrim.str "12345678")),
       ("extra", JsValue.ref 1)]
    else if a = 1 then [("a", JsValue.ref 2)]
    else if a = 2 then [("b", JsValue.ref 3)]
    else if a = 3 then [("z", JsValue.prim (JsPrim.num 1))]
    else []⟩

/-- Heap of a self-referential object: the object at address 0 holds itself
as a field. JSON.parse cannot produce such a value, but the depth check of
the source is written to handle it through its visited set, and the claim is
about that behavior. -/
def cyclicHeap : JsHeap :=
  ⟨fun a => if a = 0 then [("self", JsValue.ref 0)] else []⟩

/-- Claim C3: with levels counted as descent steps below the top-level value,
which is the depth measure the source compares against MAX_NESTING_DEPTH = 3,
a body with objects nested four levels deep is rejected with 400 and message
Payload structure too complex, a body nested exactly three levels deep passes
the depth check and, with valid credentials, the whole validator; and a
self-referential object is reported by the depth check with the same answer
as a depth overflow, so it is rejected the same way. -/
theorem nesting_depth_boundary :
    checkNestingDepth deepHeap (JsValue.ref 0) 0 [] = true ∧
    withSecurityChecks (jsonSigninRequest (some (deepHeap, JsValue.ref 0))) =
      ⟨SecOutcome.reject ⟨400, "Payload structure too complex"⟩, true⟩ ∧
    checkNestingDepth okDepthHeap (JsValue.ref 0) 0 [] = false ∧
    withSecurityChecks (jsonSigninRequest (some (okDepthHeap, JsValue.ref 0))) =
      ⟨SecOutcome.callNext, true⟩ ∧
    checkNestingDepth cyclicHeap (JsValue.ref 0) 0 [] = true ∧
    withSecurityChecks (jsonSigninRequest (some (cyclicHeap, JsValue.ref 0))) =
      ⟨SecOutcome.reject ⟨400, "Payload structure too complex"⟩, true⟩ := by
  refine ⟨by decide, by decide, by decide, by decide, by decide, by decide⟩

/-- The rejection condition of claim C7, stated on the parsed top-level value
in the words of the claim: email or password missing or not string typed, the
email failing the pattern, or the password length outside 8 to 100. -/
def credsBadClaim (h : JsHeap) (body : JsValue) : Bool :=
  !isString (getField h body "email") || !isString (getField h body "password") ||
    !emailRegexTest (asString (getField h body "email")) ||
    decide ((asString (getField h body "password")).length < 8) ||
    decide (100 < (asString (getField h body "password")).length)

/-- A value passing the string type test is a string primitive. -/
theorem isString_exists (v : JsValue) (h : isString v = true) :
    ∃ s, v = JsValue.prim (JsPrim.str s) := by
  cases v with
  | ref a => simp [isString] at h
  | prim p =>
    cases p with
    | str s => exact ⟨s, rfl⟩
    | num n => simp [isString] at h
    | jsBool b => simp [isString] at h
    | null => simp [isString] at h
    | undefined => simp [isString] at h

/-- A string matching the email pattern is nonempty. -/
theorem emailRegexTest_nonempty (s : String) (h : emailRegexTest s = true) :
    s.data.isEmpty = false := by
  rcases hs : s.data with _ | ⟨c, cs⟩
  · simp [emailRegexTest, hs] at h
  · simp [hs]

/-- A string of positive length has nonempty character data. -/
theorem data_ne_nil_of_length_pos (s : String) (h : 0 < s.length) :
    s.data.isEmpty = false := by
  have hl : s.length = s.data.length := rfl
  rcases hs : s.data with _ | ⟨c, cs⟩
  · rw [hl, hs] at h
    simp at h
  · simp [hs]

/-- On a body passing the depth check, the JSON branch accepts exactly when
the claim-level credential condition is clear: the source additionally tests
JavaScript truthiness of the two fields, but a string passing the email
pattern and a string of length at least eight are both nonempty, hence
truthy, so the two conditions agree. -/
theorem jsonBranchValidate_eq_none_iff (h : JsHeap) (body : JsValue)
    (hd : checkNestingDepth h body 0 [] = false) :
    jsonBranchValidate h body = none ↔ credsBadClaim h body = false := by
  constructor
  · intro hv
    simp only [jsonBranchValidate] at hv
    rw [hd] at hv
    simp only [Bool.false_eq_true, if_false] at hv
    split_ifs at hv with h1 h2 h3 h4
    · have hse : isString (getField h body "email") = true := by
        by_contra hx
        exact h2 (by simp [Bool.eq_false_iff.mpr hx])
      have hsp : isString (getField h body "password") = true := by
        by_contra hx
        exact h2 (by simp [Bool.eq_false_iff.mpr hx])
      have hre : emailRegexTest (asString (getField h body "email")) = true := by
        by_contra hx
        exact h3 (by simp [Bool.eq_false_iff.mpr hx])
      push_neg at h4
      obtain ⟨h8, h100⟩ := h4
      simp only [credsBadClaim, hse, hsp, hre, Bool.not_true, Bool.false_or,
        Bool.or_eq_false_iff, decide_eq_false_iff_not]
      exact ⟨by omega, by omega⟩
  · intro hc
    have hse : isString (getField h body "email") = true := by
      by_contra hx
      have hx2 : isString (getField h body "email") = false := Bool.eq_false_iff.mpr hx
      simp [credsBadClaim, hx2] at hc
    have hsp : isString (getField h body "password") = true := by
      by_contra hx
      have hx2 : isString (getField h body "password") = false := Bool.eq_false_iff.mpr hx
      simp [credsBadClaim, hx2] at hc
    have hre : emailRegexTest (asString (getField h body "email")) = true := by
      by_contra hx
      have hx2 : emailRegexTest (asString (getField h body "email")) = false :=
        Bool.eq_false_iff.mpr hx
      simp [credsBadClaim, hx2] at hc
    have h8 : ¬((asString (getField h body "password")).length < 8) := by
      intro hx
      simp [credsBadClaim, hx] at hc
    have h100 : ¬(100 < (asString (getField h body "password")).length) := by
      intro hx
      simp [credsBadClaim, hx] at hc
    obtain ⟨se, hee⟩ := isString_exists _ hse
    obtain ⟨sp, hpp⟩ := isString_exists _ hsp
    have hnull : ¬(body = JsValue.prim JsPrim.null) := by
      intro hb
      rw [hb] at hse
      simp [getField, isString] at hse
    have hte : truthy (getField h body "email") = true := by
      have hre2 := hre
      rw [hee] at hre2 ⊢
      simp only [asString] at hre2
      simp [truthy, emailRegexTest_nonempty se hre2]
    have htp : truthy (getField h body "password") = true := by
      have h82 := h8
      rw [hpp] at h82 ⊢
      simp only [asString] at h82
      have hlenpos : 0 < sp.length := by omega
      simp [truthy, data_ne_nil_of_length_pos sp hlenpos]
    simp [jsonBranchValidate, hd, hnull, hte, htp, hse, hsp, hre, h8, h100]

/-- Every message the JSON branch can produce differs from the payload-size
message, so every JSON-branch rejection is mapped to status 400. -/
theorem jsonBranchValidate_messages (h : JsHeap) (body : JsValue) (msg : String)
    (hm : jsonBranchValidate h body = some msg) : msg ≠ "Payload too large" := by
  simp only [jsonBranchValidate] at hm
  split_ifs at hm <;>
    (simp only [Option.some.injEq] at hm; subst hm; decide)

/-- Claim C7: on a POST to the validated path with a JSON content type, a
successfully parsed body within the size and depth bounds is rejected with
status 400 exactly when the claim-level credential condition holds, and
otherwise the stage calls next. -/
theorem json_credential_validation (req : SecRequest) (h : JsHeap) (body : JsValue)
    (hp : req.pathname = "/signin/password_signin")
    (hm : req.method = "POST")
    (hct : strIncludes (jsOrDefault req.contentType "") "application/json" = true)
    (hcl : declaredTooLarge req.contentLength = false)
    (hlen : req.bodyText.length ≤ SECURITY_CONFIG.MAX_PAYLOAD_SIZE)
    (hpj : req.parsedJson = some (h, body))
    (hd : checkNestingDepth h body 0 [] = false) :
    (credsBadClaim h body = true →
      ∃ msg, withSecurityChecks req = ⟨SecOutcome.reject ⟨400, msg⟩, true⟩) ∧
    (credsBadClaim h body = false →
      withSecurityChecks req = ⟨SecOutcome.callNext, true⟩) := by
  have hnotbig : ¬(SECURITY_CONFIG.MAX_PAYLOAD_SIZE < req.bodyText.length) :=
    not_lt.mpr hlen
  have hsupp : supportedContentType (jsOrDefault req.contentType "") = true := by
    simp [supportedContentType, hct]
  have hwork : securityWork req = (jsonBranchValidate h body, true) := by
    simp [securityWork, hcl, hct, hnotbig, hpj]
  constructor
  · intro hbad
    have hne : jsonBranchValidate h body ≠ none := by
      intro hx
      have hx2 := (jsonBranchValidate_eq_none_iff h body hd).mp hx
      rw [hbad] at hx2
      simp at hx2
    obtain ⟨msg, hmsg⟩ := Option.ne_none_iff_exists'.mp hne
    have hnp := jsonBranchValidate_messages h body msg hmsg
    refine ⟨msg, ?_⟩
    simp [withSecurityChecks, hp, hm, ctGateEq, hsupp, hwork, hmsg, hnp]
  · intro hgood
    have hnone : jsonBranchValidate h body = none :=
      (jsonBranchValidate_eq_none_iff h body hd).mpr hgood
    simp [withSecurityChecks, hp, hm, ctGateEq, hsupp, hwork, hnone]

/-- Heap of a parsed body holding exactly the valid credential pair of the
spec examples. -/
def validCredsHeap : JsHeap :=
  ⟨fun a =>
    if a = 0 then
      [("email", JsValue.prim (JsPrim.str "a@b.com")),
       ("password", JsValue.prim (JsPrim.str "12345678"))]
    else []⟩

/-- Concrete instantiation of the credential validation theorem: the valid
credential body passes through to next. -/
theorem json_credential_validation_witness :
    credsBadClaim validCredsHeap (JsValue.ref 0) = false ∧
    withSecurityChecks (jsonSigninRequest (some (validCredsHeap, JsValue.ref 0))) =
      ⟨SecOutcome.callNext, true⟩ := by
  refine ⟨by decide, ?_⟩
  exact (json_credential_validation
    (jsonSigninRequest (some (validCredsHeap, JsValue.ref 0)))
    validCredsHeap (JsValue.ref 0) rfl rfl (by decide) (by decide) (by decide) rfl
    (by decide)).2 (by decide)

/-- The rejection condition of claim C8 on the parsed form entries: more than
ten fields, an over-long string field, or a string field containing a
denylisted substring. -/
def formRejects (entries : List (String × FormValue)) : Bool :=
  decide (SECURITY_CONFIG.MAX_FORM_FIELDS < entries.length) ||
    entries.any fun kv =>
      match kv.2 with
      | FormValue.str s =>
        decide (SECURITY_CONFIG.MAX_FIELD_LENGTH < s.length) || denylisted s
      | FormValue.file => false

/-- The per-entry loop throws exactly when some string entry is over-long or
denylisted. -/
theorem formFieldError_eq_none_iff (entries : List (String × FormValue)) :
    formFieldError entries = none ↔
      (entries.any fun kv =>
        match kv.2 with
        | FormValue.str s =>
          decide (SECURITY_CONFIG.MAX_FIELD_LENGTH < s.length) || denylisted s
        | FormValue.file => false) = false := by
  induction entries with
  | nil => simp [formFieldError]
  | cons kv rest ih =>
    rcases kv with ⟨k, v⟩
    cases v with
    | file => simpa [formFieldError] using ih
    | str s =>
      by_cases h1 : SECURITY_CONFIG.MAX_FIELD_LENGTH < s.length
      · simp [formFieldError, h1]
      · by_cases h2 : denylisted s = true
        · simp [formFieldError, h1, h2]
        · have h2f : denylisted s = false := Bool.eq_false_iff.mpr h2
          simpa [formFieldError, h1, h2f] using ih

/-- The form branch answer on a successful formData parse, as a function of
the claim-level rejection condition: every internal throw is converted by the
catch of line 207 to the single message Invalid form data. -/
theorem formBranchValidate_eq (entries : List (String × FormValue)) :
    formBranchValidate (some entries) =
      (if formRejects entries then some "Invalid form data" else none) := by
  by_cases hc : SECURITY_CONFIG.MAX_FORM_FIELDS < entries.length
  · simp [formBranchValidate, formRejects, hc]
  · by_cases he : formFieldError entries = none
    · have hany := (formFieldError_eq_none_iff entries).mp he
      simp [formBranchValidate, formRejects, hc, he, hany]
    · obtain ⟨m, hmm⟩ := Option.ne_none_iff_exists'.mp he
      have hany : (entries.any fun kv =>
          match kv.2 with
          | FormValue.str s =>
            decide (SECURITY_CONFIG.MAX_FIELD_LENGTH < s.length) || denylisted s
          | FormValue.file => false) = true := by
        by_contra hx
        exact he ((formFieldError_eq_none_iff entries).mpr (Bool.eq_false_iff.mpr hx))
      simp [formBranchValidate, formRejects, hc, hmm, hany]

/-- Reduction of the security stage on the form branch: a POST to the
validated path with a form content type that does not include the JSON media
type and passes the declared-size gate answers according to the claim-level
form rejection condition. -/
theorem form_branch_reduction (req : SecRequest)
    (entries : List (String × FormValue))
    (hp : req.pathname = "/signin/password_signin")
    (hm : req.method = "POST")
    (hnj : strIncludes (jsOrDefault req.contentType "") "application/json" = false)
    (hform :
      strIncludes (jsOrDefault req.contentType "") "application/x-www-form-urlencoded" = true ∨
      strIncludes (jsOrDefault req.contentType "") "multipart/form-data" = true)
    (hcl : declaredTooLarge req.contentLength = false)
    (hfd : req.formData = some entries) :
    withSecurityChecks req =
      (if formRejects entries then
        ⟨SecOutcome.reject ⟨400, "Invalid form data"⟩, true⟩
      else ⟨SecOutcome.callNext, true⟩) := by
  have hor :
      (strIncludes (jsOrDefault req.contentType "") "application/x-www-form-urlencoded" ||
        strIncludes (jsOrDefault req.contentType "") "multipart/form-data") = true := by
    rcases hform with hf | hf <;> simp [hf]
  have hsupp : supportedContentType (jsOrDefault req.contentType "") = true := by
    rcases hform with hf | hf <;> simp [supportedContentType, hf]
  have hwork : securityWork req = (formBranchValidate req.formData, true) := by
    simp [securityWork, hcl, hnj, hor]
  rw [hfd, formBranchValidate_eq] at hwork
  by_cases hr : formRejects entries = true
  · rw [hr, if_pos rfl] at hwork
    simp [withSecurityChecks, hp, hm, ctGateEq, hsupp, hwork, hr]
  · have hrf : formRejects entries = false := Bool.eq_false_iff.mpr hr
    rw [hrf] at hwork
    simp only [Bool.false_eq_true, if_false] at hwork
    simp [withSecurityChecks, hp, hm, ctGateEq, hsupp, hwork, hrf]

/-- A form request to the validated endpoint with the given formData oracle
result. -/
def formSigninRequest (entries : List (String × FormValue)) : SecRequest :=
  ⟨"/signin/password_signin", "POST", some "application/x-www-form-urlencoded",
    none, "", none, some entries⟩

/-- A clean form field of 999 characters. -/
def cleanField999 : String :=
  String.mk (List.replicate 999 'a')

/-- A clean form field of 1001 characters. -/
def cleanField1001 : String :=
  String.mk (List.replicate 1001 'a')

/-- A run of identical characters different from the head of every denylist
pattern contains no denylisted substring. -/
theorem strHasSub_replicate_false (pat : List Char) (p : Char) (rest : List Char)
    (hpat : pat = p :: rest) (hne : ¬(('a' : Char) = p)) :
    ∀ n, strHasSub (List.replicate n 'a') pat = false := by
  intro n
  induction n with
  | zero => simp [strHasSub, hpat]
  | succ m ih =>
    rw [List.replicate_succ]
    rw [strHasSub]
    rw [ih, hpat]
    simp [charsLeadWith, hne]

/-- A run of the letter a is never denylisted. -/
theorem denylisted_replicate_false (n : Nat) :
    denylisted (String.mk (List.replicate n 'a')) = false := by
  have h1 := strHasSub_replicate_false "script".data 's' "cript".data rfl (by decide) n
  have h2 := strHasSub_replicate_false "<".data '<' [] rfl (by decide) n
  have h3 := strHasSub_replicate_false ">".data '>' [] rfl (by decide) n
  have h4 := strHasSub_replicate_false "$\x7b".data '$' "\x7b".data rfl (by decide) n
  have h5 := strHasSub_replicate_false "eval(".data 'e' "val(".data rfl (by decide) n
  simp [denylisted, strIncludes, h1, h2, h3, h4, h5]

/-- Claim C8: on the form branch, the validator rejects with status 400 and
the error string Invalid form data, the single reason string under which the
catch of the source surfaces every form validation failure, exactly when the
field count exceeds 10, a string field exceeds 1000 characters or a string
field contains a denylisted substring; in particular a field containing a
script tag is rejected, a clean field of length 999 passes through to next,
and a clean field of length 1001 is rejected. -/
theorem form_validation_policy :
    (∀ (req : SecRequest) (entries : List (String × FormValue)),
      req.pathname = "/signin/password_signin" → req.method = "POST" →
      strIncludes (jsOrDefault req.contentType "") "application/json" = false →
      (strIncludes (jsOrDefault req.contentType "") "application/x-www-form-urlencoded" = true ∨
        strIncludes (jsOrDefault req.contentType "") "multipart/form-data" = true) →
      declaredTooLarge req.contentLength = false →
      req.formData = some entries →
      withSecurityChecks req =
        (if formRejects entries then
          ⟨SecOutcome.reject ⟨400, "Invalid form data"⟩, true⟩
        else ⟨SecOutcome.callNext, true⟩)) ∧
    withSecurityChecks
        (formSigninRequest [("comment", FormValue.str "hello <script> world")]) =
      ⟨SecOutcome.reject ⟨400, "Invalid form data"⟩, true⟩ ∧
    withSecurityChecks (formSigninRequest [("comment", FormValue.str cleanField999)]) =
      ⟨SecOutcome.callNext, true⟩ ∧
    withSecurityChecks (formSigninRequest [("comment", FormValue.str cleanField1001)]) =
      ⟨SecOutcome.reject ⟨400, "Invalid form data"⟩, true⟩ := by
  refine ⟨fun req entries hp hm hnj hform hcl hfd =>
    form_branch_reduction req entries hp hm hnj hform hcl hfd, ?_, ?_, ?_⟩
  · rw [form_branch_reduction (formSigninRequest _) _ rfl rfl (by decide)
      (Or.inl (by decide)) (by decide) rfl]
    have hr : formRejects [("comment", FormValue.str "hello <script> world")] = true := by
      decide
    rw [hr, if_pos rfl]
  · rw [form_branch_reduction (formSigninRequest _) _ rfl rfl (by decide)
      (Or.inl (by decide)) (by decide) rfl]
    have hlen : cleanField999.length = 999 := by
      have : cleanField999.length = (List.replicate 999 'a').length := rfl
      rw [this, List.length_replicate]
    have hr : formRejects [("comment", FormValue.str cleanField999)] = false := by
      have hden : denylisted cleanField999 = false := denylisted_replicate_false 999
      simp [formRejects, SECURITY_CONFIG, hlen, hden]
    rw [hr]
    simp
  · rw [form_branch_reduction (formSigninRequest _) _ rfl rfl (by decide)
      (Or.inl (by decide)) (by decide) rfl]
    have hlen : cleanField1001.length = 1001 := by
      have : cleanField1001.length = (List.replicate 1001 'a').length := rfl
      rw [this, List.length_replicate]
    have hr : formRejects [("comment", FormValue.str cleanField1001)] = true := by
      simp [formRejects, SECURITY_CONFIG, hlen]
    rw [hr, if_pos rfl]

/-- Concrete instantiation of the form validation theorem: an empty form
passes through to next. -/
theorem form_validation_policy_witness :
    withSecurityChecks (formSigninRequest []) = ⟨SecOutcome.callNext, true⟩ := by
  have h := form_validation_policy.1 (formSigninRequest []) [] rfl rfl (by decide)
    (Or.inl (by decide)) (by decide) rfl
  simpa [formRejects] using h

/-- Cookie attributes as passed to res.cookies.set. -/
structure CookieOptions where
  httpOnly : Bool
  sameSite : String
  maxAge : Nat
  path : String
deriving DecidableEq

/-- A cookie set on a response: name, value and attributes. -/
structure SetCookie where
  name : String
  value : String
  options : CookieOptions
deriving DecidableEq

/-- The awaited result of the next handler as the fingerprint stage observes
it: a NextResponse instance carrying its response cookies, or any other
awaited value, which also covers an undefined result of an inner stage. -/
inductive MwResponse where
  | nextResponse : List SetCookie → MwResponse
  | otherValue : MwResponse
deriving DecidableEq

/-- res.cookies.set on a cookie list: any cookie of the same name is replaced
by the new one. -/
def cookieSet (cs : List SetCookie) (c : SetCookie) : List SetCookie :=
  cs.filter (fun c2 => !decide (c2.name = c.name)) ++ [c]

/-- Request model for the fingerprint stage: the path and the three headers
the stage reads. -/
structure FPRequest where
  pathname : String
  xForwardedFor : Option String
  userAgent : Option String
  acceptLanguage : Option String

/-- The client address derivation of middlewares.ts lines 247 to 248: first
comma-separated token of the forwarded chain, trimmed, with the literal
unknown as fallback when the header is absent or the token is empty. -/
def fpIp (xff : Option String) : String :=
  match xff with
  | none => "unknown"
  | some s =>
    let t := firstTokenTrimmed ',' s
    if t.data.isEmpty then "unknown" else t

/-- The accept-language derivation of middlewares.ts line 250: the header
value, or undefined when the header is absent or empty. -/
def fpLanguage (al : Option String) : Option String :=
  match al with
  | none => none
  | some s => if s.data.isEmpty then none else some s

/-- Whether the path triggers fingerprint post-processing, middlewares.ts
lines 242 to 244. -/
def fpPathMatch (p : String) : Bool :=
  strStartsWith p "/signin/signup" || strStartsWith p "/auth/callback"

/-- Embedding of withFingerPrinting, middlewares.ts lines 238 to 270. The
generateFingerprint function lives in auth-helpers/fingerprinting, outside
the given sources; per the spec it is a pure deterministic function of the
client ip, the user agent and the optional language, so the stage is
parameterized over it. The stage awaits next first; on a matching path it
computes the fingerprint, attaches the cookie when the response is a
NextResponse instance, and returns the response; on every other path the
conditional has no else branch, so the handler returns undefined, modelled
as none. -/
def withFingerPrinting (fp : String → String → Option String → String)
    (next : MwResponse) (req : FPRequest) : Option MwResponse :=
  if fpPathMatch req.pathname then
    let ip := fpIp req.xForwardedFor
    let userAgent := jsOrDefault req.userAgent "unknown"
    let language := fpLanguage req.acceptLanguage
    let fingerprint := fp ip userAgent language
    match next with
    | MwResponse.nextResponse cookies =>
      some (MwResponse.nextResponse (cookieSet cookies
        ⟨"sf_rsint", fingerprint, ⟨false, "lax", 60 * 60 * 24 * 30, "/"⟩⟩))
    | MwResponse.otherValue => some MwResponse.otherValue
  else none

/-- Whether the value returned by the fingerprint stage carries a cookie
named sf_rsint. -/
def carriesSfCookie : Option MwResponse → Bool
  | some (MwResponse.nextResponse cs) => cs.any fun c => decide (c.name = "sf_rsint")
  | some MwResponse.otherValue => false
  | none => false

/-- Claim C2: for every request whose path neither starts with the sign-up
prefix nor the auth-callback prefix, the fingerprint stage handler awaits
next but returns undefined instead of the awaited response, so the inner
handler response is dropped by this stage for all non-matching paths. -/
theorem fingerprint_drops_response_on_other_paths
    (fp : String → String → Option String → String) (next : MwResponse)
    (req : FPRequest)
    (h1 : strStartsWith req.pathname "/signin/signup" = false)
    (h2 : strStartsWith req.pathname "/auth/callback" = false) :
    withFingerPrinting fp next req = none := by
  simp [withFingerPrinting, fpPathMatch, h1, h2]

/-- Concrete instantiation of the dropped-response theorem at a dashboard
path. -/
theorem fingerprint_drops_response_on_other_paths_witness :
    withFingerPrinting (fun _ _ _ => "token")
      (MwResponse.nextResponse []) ⟨"/dashboard", none, none, none⟩ = none :=
  fingerprint_drops_response_on_other_paths (fun _ _ _ => "token")
    (MwResponse.nextResponse []) ⟨"/dashboard", none, none, none⟩
    (by decide) (by decide)

/-- Claim C10: the stage attaches the sf_rsint cookie, with httpOnly false,
sameSite lax, max age 2592000 seconds and root path, exactly when the request
path starts with the sign-up or auth-callback prefix and the awaited response
is a NextResponse instance; on a matching path with a response of any other
shape the response is returned untouched, and on every non-matching path the
stage returns undefined, which carries no sf_rsint cookie. -/
theorem fingerprint_cookie_policy
    (fp : String → String → Option String → String) (req : FPRequest) :
    (∀ cs, fpPathMatch req.pathname = true →
      withFingerPrinting fp (MwResponse.nextResponse cs) req =
        some (MwResponse.nextResponse (cookieSet cs
          ⟨"sf_rsint",
            fp (fpIp req.xForwardedFor) (jsOrDefault req.userAgent "unknown")
              (fpLanguage req.acceptLanguage),
            ⟨false, "lax", 2592000, "/"⟩⟩))) ∧
    (fpPathMatch req.pathname = true →
      withFingerPrinting fp MwResponse.otherValue req = some MwResponse.otherValue) ∧
    (∀ next, fpPathMatch req.pathname = false →
      withFingerPrinting fp next req = none ∧
      carriesSfCookie (withFingerPrinting fp next req) = false) := by
  refine ⟨?_, ?_, ?_⟩
  · intro cs hmatch
    simp [withFingerPrinting, hmatch]
  · intro hmatch
    simp [withFingerPrinting, hmatch]
  · intro next hmatch
    constructor
    · simp [withFingerPrinting, hmatch]
    · simp [withFingerPrinting, hmatch, carriesSfCookie]

/-- Concrete instantiation of the cookie policy theorem: on the sign-up path
with a bare NextResponse, exactly the sf_rsint cookie with the stated
attributes is attached. -/
theorem fingerprint_cookie_policy_witness :
    fpPathMatch "/signin/signup" = true ∧
    withFingerPrinting (fun _ _ _ => "token") (MwResponse.nextResponse [])
      ⟨"/signin/signup", none, none, none⟩ =
      some (MwResponse.nextResponse
        [⟨"sf_rsint", "token", ⟨false, "lax", 2592000, "/"⟩⟩]) := by
  refine ⟨by decide, ?_⟩
  have h := (fingerprint_cookie_policy (fun _ _ _ => "token")
    ⟨"/signin/signup", none, none, none⟩).1 [] (by decide)
  simpa [cookieSet] using h
